import Mathlib

/-!
Shallow embedding of the seaf-share client (src/main.rs, src/seafile.rs,
src/cli.rs) and proofs about its specification claims.

Machine integers (`u64`) are modelled as `Nat` (sizes and byte counts only
grow by list lengths here, no wrap-around arithmetic occurs in the source).
`DateTime<Utc>` values are carried opaquely as `String`.
Fallible operations return `Except`/`Option`.
-/

namespace SeafShare

/-! ### Share-link parsing (main.rs, `ShareLink::from_url`)

The source classifies `url.path()` with the unanchored regular expressions
`"/d/([0-9a-f]+)(/files)?"` and `"/f/([0-9a-f]+)"` in a `RegexSet`, taking
the lowest-index pattern that matches anywhere in the path, then re-running
that single pattern to obtain the leftmost match and its capture groups.
We embed this as an explicit left-to-right scan. -/

/-- The character class `[0-9a-f]` of the token patterns. -/
def isLowerHex (c : Char) : Bool :=
  (('0' ≤ c) && (c ≤ '9')) || (('a' ≤ c) && (c ≤ 'f'))

/-- The literal `/files` of the optional second capture group. -/
def filesMarker : List Char := ['/', 'f', 'i', 'l', 'e', 's']

/-- Attempt to match `/d/([0-9a-f]+)(/files)?` at the head of the list:
returns the (greedy, maximal) hex token and whether the optional `/files`
group matched right after it. -/
def matchDAt : List Char → Option (List Char × Bool)
  | '/' :: 'd' :: '/' :: rest =>
    let tok := rest.takeWhile isLowerHex
    if tok = [] then none
    else some (tok, filesMarker.isPrefixOf (rest.dropWhile isLowerHex))
  | _ => none

/-- Attempt to match `/f/([0-9a-f]+)` at the head of the list. -/
def matchFAt : List Char → Option (List Char)
  | '/' :: 'f' :: '/' :: rest =>
    let tok := rest.takeWhile isLowerHex
    if tok = [] then none else some tok
  | _ => none

/-- Leftmost match of the directory pattern anywhere in the path
(unanchored regex search). -/
def findD : List Char → Option (List Char × Bool)
  | [] => none
  | c :: rest =>
    match matchDAt (c :: rest) with
    | some r => some r
    | none => findD rest

/-- Leftmost match of the single-file pattern anywhere in the path. -/
def findF : List Char → Option (List Char)
  | [] => none
  | c :: rest =>
    match matchFAt (c :: rest) with
    | some r => some r
    | none => findF rest

/-- `ShareLink` (main.rs lines 155-165). -/
inductive ShareLink
  | Directory (token : String) (path : Option String) (file : Bool)
  | SingleFile (token : String)
deriving DecidableEq

/-- `url.query_pairs().find_map(...)`: the value of the first query pair
whose key is `p`. -/
def findP (query : List (String × String)) : Option String :=
  (query.find? (fun kv => kv.1 == "p")).map (·.2)

/-- `ShareLink::from_url` (main.rs lines 195-222). The URL is represented
by its path string and its decoded query pairs. The directory pattern has
`RegexSet` index 0, so it takes precedence when both patterns occur. -/
def ShareLink.from_url (path : String) (query : List (String × String)) :
    Option ShareLink :=
  match findD path.toList with
  | some (tok, files) => some (.Directory (String.mk tok) (findP query) files)
  | none =>
    match findF path.toList with
    | some tok => some (.SingleFile (String.mk tok))
    | none => none

/-- Modelled from the spec's words (spec.md sections 4.1, 6 and 8): the
accepted share path shapes as exact whole-path shapes, `/d/{hex-token}`,
`/d/{hex-token}/files`, `/f/{hex-token}`, where `{hex-token}` is one or
more lowercase hex characters; any other path yields nothing. Used to
compare the spec's classification with the implementation's. -/
def specShareShape (path : String) (query : List (String × String)) :
    Option ShareLink :=
  match path.toList with
  | '/' :: 'd' :: '/' :: rest =>
    let tok := rest.takeWhile isLowerHex
    let rem := rest.dropWhile isLowerHex
    if tok = [] then none
    else if rem = [] then some (.Directory (String.mk tok) (findP query) false)
    else if rem = filesMarker then
      some (.Directory (String.mk tok) (findP query) true)
    else none
  | '/' :: 'f' :: '/' :: rest =>
    let tok := rest.takeWhile isLowerHex
    if tok = [] then none
    else if rest.dropWhile isLowerHex = [] then some (.SingleFile (String.mk tok))
    else none
  | _ => none

/-- The directory pattern `/d/([0-9a-f]+)` occurs somewhere in the list. -/
def ContainsDPat (l : List Char) : Prop :=
  ∃ u c v, l = u ++ '/' :: 'd' :: '/' :: c :: v ∧ isLowerHex c = true

/-- The single-file pattern `/f/([0-9a-f]+)` occurs somewhere in the list. -/
def ContainsFPat (l : List Char) : Prop :=
  ∃ u c v, l = u ++ '/' :: 'f' :: '/' :: c :: v ∧ isLowerHex c = true

/-- A nonempty all-lowercase-hex token. -/
def HexTok (t : List Char) : Prop := t ≠ [] ∧ ∀ c ∈ t, isLowerHex c = true

lemma takeWhile_hex_all {t : List Char} (h : ∀ c ∈ t, isLowerHex c = true) :
    t.takeWhile isLowerHex = t :=
  List.takeWhile_eq_self_iff.mpr (by simpa using h)

lemma dropWhile_hex_all {t : List Char} (h : ∀ c ∈ t, isLowerHex c = true) :
    t.dropWhile isLowerHex = [] :=
  List.dropWhile_eq_nil_iff.mpr (by simpa using h)

lemma hex_files_split {t : List Char} (h : ∀ c ∈ t, isLowerHex c = true) :
    (t ++ filesMarker).takeWhile isLowerHex = t ∧
    (t ++ filesMarker).dropWhile isLowerHex = filesMarker := by
  induction t with
  | nil => exact ⟨by decide, by decide⟩
  | cons c t ih =>
    have hc := h c (by simp)
    have ih' := ih (fun x hx => h x (by simp [hx]))
    simp [List.takeWhile_cons, List.dropWhile_cons, hc, ih'.1, ih'.2]

lemma matchDAt_dir {t : List Char} (ht : HexTok t) :
    matchDAt ('/' :: 'd' :: '/' :: t) = some (t, false) := by
  obtain ⟨hne, hall⟩ := ht
  simp only [matchDAt, takeWhile_hex_all hall, dropWhile_hex_all hall]
  simp [hne, List.isPrefixOf, filesMarker]

lemma matchDAt_dirfiles {t : List Char} (ht : HexTok t) :
    matchDAt ('/' :: 'd' :: '/' :: (t ++ filesMarker)) = some (t, true) := by
  obtain ⟨hne, hall⟩ := ht
  obtain ⟨h1, h2⟩ := hex_files_split hall
  simp only [matchDAt, h1, h2]
  simp [hne, show filesMarker.isPrefixOf filesMarker = true by decide]

lemma matchFAt_file {t : List Char} (ht : HexTok t) :
    matchFAt ('/' :: 'f' :: '/' :: t) = some t := by
  obtain ⟨hne, hall⟩ := ht
  simp only [matchFAt, takeWhile_hex_all hall]
  simp [hne]

lemma matchDAt_some {l : List Char} {r} (h : matchDAt l = some r) :
    ∃ c v, l = '/' :: 'd' :: '/' :: c :: v ∧ isLowerHex c = true := by
  unfold matchDAt at h
  split at h
  case h_2 => exact absurd h (by simp)
  case h_1 rest =>
    cases hrest : rest with
    | nil => subst hrest; simp at h
    | cons c v =>
      subst hrest
      refine ⟨c, v, rfl, ?_⟩
      by_contra hc
      rw [Bool.not_eq_true] at hc
      simp [List.takeWhile_cons, hc] at h

lemma matchFAt_some {l : List Char} {r} (h : matchFAt l = some r) :
    ∃ c v, l = '/' :: 'f' :: '/' :: c :: v ∧ isLowerHex c = true := by
  unfold matchFAt at h
  split at h
  case h_2 => exact absurd h (by simp)
  case h_1 rest =>
    cases hrest : rest with
    | nil => subst hrest; simp at h
    | cons c v =>
      subst hrest
      refine ⟨c, v, rfl, ?_⟩
      by_contra hc
      rw [Bool.not_eq_true] at hc
      simp [List.takeWhile_cons, hc] at h

lemma containsDPat_cons {l : List Char} (c : Char) (h : ContainsDPat l) :
    ContainsDPat (c :: l) := by
  obtain ⟨u, c', v, heq, hc⟩ := h
  exact ⟨c :: u, c', v, by simp [heq], hc⟩

lemma containsFPat_cons {l : List Char} (c : Char) (h : ContainsFPat l) :
    ContainsFPat (c :: l) := by
  obtain ⟨u, c', v, heq, hc⟩ := h
  exact ⟨c :: u, c', v, by simp [heq], hc⟩

lemma findD_some_contains {l : List Char} {r} (h : findD l = some r) :
    ContainsDPat l := by
  induction l with
  | nil => simp [findD] at h
  | cons c rest ih =>
    unfold findD at h
    split at h
    case h_1 r' hm =>
      obtain ⟨c', v, heq, hc⟩ := matchDAt_some hm
      exact ⟨[], c', v, heq, hc⟩
    case h_2 => exact containsDPat_cons c (ih h)

lemma findF_some_contains {l : List Char} {r} (h : findF l = some r) :
    ContainsFPat l := by
  induction l with
  | nil => simp [findF] at h
  | cons c rest ih =>
    unfold findF at h
    split at h
    case h_1 r' hm =>
      obtain ⟨c', v, heq, hc⟩ := matchFAt_some hm
      exact ⟨[], c', v, heq, hc⟩
    case h_2 => exact containsFPat_cons c (ih h)

lemma findD_eq_none {l : List Char} (h : ¬ ContainsDPat l) : findD l = none := by
  cases hf : findD l with
  | none => rfl
  | some r => exact absurd (findD_some_contains hf) h

lemma findF_eq_none {l : List Char} (h : ¬ ContainsFPat l) : findF l = none := by
  cases hf : findF l with
  | none => rfl
  | some r => exact absurd (findF_some_contains hf) h

lemma not_containsD_fpath {t : List Char} (hall : ∀ c ∈ t, isLowerHex c = true) :
    ¬ ContainsDPat ('/' :: 'f' :: '/' :: t) := by
  rintro ⟨u, c, v, heq, hc⟩
  rcases u with _ | ⟨a1, u⟩
  · simp at heq
  rcases u with _ | ⟨a2, u⟩
  · simp at heq
  rcases u with _ | ⟨a3, u⟩
  · simp at heq
    have : isLowerHex '/' = true := hall '/' (by simp [heq.2.2])
    exact absurd this (by decide)
  · simp at heq
    have : isLowerHex '/' = true := hall '/' (by simp [heq.2.2.2])
    exact absurd this (by decide)

lemma findD_cons_match {c : Char} {rest : List Char} {r}
    (h : matchDAt (c :: rest) = some r) : findD (c :: rest) = some r := by
  unfold findD
  rw [h]

lemma findF_cons_match {c : Char} {rest : List Char} {r}
    (h : matchFAt (c :: rest) = some r) : findF (c :: rest) = some r := by
  unfold findF
  rw [h]

/-- Claim C1, as stated, is false: the two patterns are searched for
*anywhere* in the path (the regexes are unanchored), so the path
`/x/d/abc`, which is of none of the accepted whole-path shapes (the
spec-shaped parser rejects it), nevertheless parses as a directory share
with token `abc`. -/
theorem from_url_unanchored_cex :
    specShareShape "/x/d/abc" [] = none ∧
    ShareLink.from_url "/x/d/abc" [] =
      some (.Directory "abc" none false) := by
  constructor <;> rfl

/-- Claim C1 (amended): for every URL whose path is of an accepted shape,
parsing classifies it exactly as the spec says — `/d/{hex-token}` yields
`Directory` with the `p` query value and file flag false, the `/files`
marker sets the file flag, `/f/{hex-token}` yields `SingleFile` — but the
match is by unanchored containment: only a URL whose path contains no
occurrence of `/d/{hex}` and none of `/f/{hex}` yields nothing. -/
theorem from_url_classification :
    (∀ t q, HexTok t →
      ShareLink.from_url (String.mk ('/' :: 'd' :: '/' :: t)) q =
        some (.Directory (String.mk t) (findP q) false)) ∧
    (∀ t q, HexTok t →
      ShareLink.from_url (String.mk ('/' :: 'd' :: '/' :: (t ++ filesMarker))) q =
        some (.Directory (String.mk t) (findP q) true)) ∧
    (∀ t q, HexTok t →
      ShareLink.from_url (String.mk ('/' :: 'f' :: '/' :: t)) q =
        some (.SingleFile (String.mk t))) ∧
    (∀ (p : String) q, ¬ ContainsDPat p.toList → ¬ ContainsFPat p.toList →
      ShareLink.from_url p q = none) := by
  refine ⟨?_, ?_, ?_, ?_⟩
  · intro t q ht
    unfold ShareLink.from_url
    rw [show (String.mk ('/' :: 'd' :: '/' :: t)).toList = '/' :: 'd' :: '/' :: t from rfl,
      findD_cons_match (matchDAt_dir ht)]
  · intro t q ht
    unfold ShareLink.from_url
    rw [show (String.mk ('/' :: 'd' :: '/' :: (t ++ filesMarker))).toList
          = '/' :: 'd' :: '/' :: (t ++ filesMarker) from rfl,
      findD_cons_match (matchDAt_dirfiles ht)]
  · intro t q ht
    unfold ShareLink.from_url
    rw [show (String.mk ('/' :: 'f' :: '/' :: t)).toList = '/' :: 'f' :: '/' :: t from rfl,
      findD_eq_none (not_containsD_fpath ht.2), findF_cons_match (matchFAt_file ht)]
  · intro p q hd hf
    unfold ShareLink.from_url
    rw [findD_eq_none hd, findF_eq_none hf]

/-- Witness for `from_url_classification` at concrete inputs. -/
theorem from_url_classification_witness :
    ShareLink.from_url (String.mk ['/', 'd', '/', 'a']) [("p", "/q")] =
      some (.Directory (String.mk ['a']) (some "/q") false) ∧
    ShareLink.from_url (String.mk (['/', 'd', '/', 'a'] ++ filesMarker)) [] =
      some (.Directory (String.mk ['a']) none true) ∧
    ShareLink.from_url (String.mk ['/', 'f', '/', 'a']) [] =
      some (.SingleFile (String.mk ['a'])) ∧
    ShareLink.from_url "zzz" [] = none := by
  refine ⟨?_, ?_, ?_, ?_⟩
  · exact from_url_classification.1 ['a'] [("p", "/q")] ⟨by decide, by decide⟩
  · exact from_url_classification.2.1 ['a'] [] ⟨by decide, by decide⟩
  · exact from_url_classification.2.2.1 ['a'] [] ⟨by decide, by decide⟩
  · refine from_url_classification.2.2.2 "zzz" [] ?_ ?_
    · rintro ⟨u, c, v, heq, -⟩
      have := congrArg List.length heq
      simp at this
      omega
    · rintro ⟨u, c, v, heq, -⟩
      have := congrArg List.length heq
      simp at this
      omega

/-! ### Transfer engine (main.rs, `Downloader`)

Remote and local paths are modelled by their component lists (`Path` /
`PathBuf` semantics): the absolute remote path `/a/b` is `["a", "b"]`, so
`strip_prefix("/")` is the identity and `strip_prefix(base)` drops a
component prefix. The local filesystem is a partial map from destination
paths to file states (content bytes and an optional modification time).
The HTTP client is a function from URL (and optional `range` header) to a
response; as with the `ureq` agent in the source, transport failures and
non-2xx statuses surface as errors of the call itself, while the call can
also succeed with a non-206 status for a range request. -/

/-- A remote path, as its list of components. -/
abbrev RPath := List String

/-- A local path, as its list of components. -/
abbrev LPath := List String

/-- `DownloadResult` (main.rs lines 21-27). -/
inductive DownloadResult
  | Skipped
  | Overwritten
  | Continued
  | Complete
deriving DecidableEq

/-- `ConflictAction` (cli.rs lines 149-164). -/
inductive ConflictAction
  | Skip
  | Check
  | Continue
  | Overwrite
deriving DecidableEq

/-- `Recursive` (cli.rs lines 166-177). -/
inductive Recursive
  | None
  | Dfs
  | Bfs
deriving DecidableEq

/-- `DirEntry` (main.rs lines 225-246). Remote timestamps are opaque
strings; URLs are strings. -/
inductive DirEntry
  | Directory (name : String) (path : RPath) (last_modified : String)
      (view_url : String)
  | File (name : String) (path : RPath) (size : Nat)
      (last_modified : Option String) (download_url : String) (view_url : String)
deriving DecidableEq

/-- `DirEntry::is_file` (main.rs lines 249-254). -/
def DirEntry.is_file : DirEntry → Bool
  | .Directory .. => false
  | .File .. => true

/-- `DirEntry::is_dir` (main.rs lines 255-260). -/
def DirEntry.is_dir : DirEntry → Bool
  | .Directory .. => true
  | .File .. => false

/-- `DirEntry::path` (main.rs lines 266-270). -/
def DirEntry.path : DirEntry → RPath
  | .Directory _ p _ _ => p
  | .File _ p _ _ _ _ => p

/-- An HTTP response that the `call()` itself accepted (2xx). -/
structure HttpResp where
  status : Nat
  body : List Nat
deriving DecidableEq

/-- The `ureq::Agent` used by `Downloader`, as response functions: `get`
for a plain GET, `getRange` for a GET carrying a `range` header (keyed by
the exact header value the source formats). An `Except.error` is a
transport failure or non-success status of the call. -/
structure HttpClient where
  get : String → Except String HttpResp
  getRange : String → String → Except String HttpResp

/-- How a transfer operation ends abnormally: `err` is a catchable
`anyhow::Error`; `crash` models a Rust panic (the `todo!()` /
`unreachable!()` macros), which no caller catches. -/
inductive DlErr
  | err (msg : String)
  | crash
deriving DecidableEq

/-- The state of one local file. -/
structure LocalFile where
  content : List Nat
  mtime : Option String
deriving DecidableEq

/-- The local destination filesystem: a partial map from paths to files. -/
abbrev FS := LPath → Option LocalFile

/-- Write (create or replace) one file. -/
def fsInsert (fs : FS) (p : LPath) (f : LocalFile) : FS :=
  fun q => if q = p then some f else fs q

/-- `DownloadOptions` (cli.rs lines 78-147). Include patterns are carried
as opaque strings exactly as the CLI parses them; exclude patterns are
abstracted to their `matches_path` predicate, the only way the source
consumes them. -/
structure DownloadOptions where
  dry_run : Bool
  output : LPath
  archive : Bool
  conflict : ConflictAction
  includePats : List String
  exclude : List (RPath → Bool)
  recursive : Recursive

/-- The inclusive-convention wire form of a byte range header value,
`format!("bytes={}-{}", start, end - 1)` (main.rs line 89). -/
def wireRange (a b : Nat) : String :=
  "bytes=" ++ toString a ++ "-" ++ toString b

/-- `Downloader::download` (main.rs lines 68-75): plain GET, append the
body to the writer. `content` is what the writer has already received. -/
def download (client : HttpClient) (content : List Nat) (url : String) :
    Except DlErr (List Nat) :=
  match client.get url with
  | .error e => .error (.err e)
  | .ok resp => .ok (content ++ resp.body)

/-- `Downloader::download_range` (main.rs lines 77-97): GET with a
`range: bytes={start}-{stop-1}` header for the half-open range
`[start, stop)`; a 206 response body is appended to the writer, any other
accepted status hits `todo!()` and panics. -/
def download_range (client : HttpClient) (content : List Nat) (url : String)
    (start stop : Nat) : Except DlErr (List Nat) :=
  match client.getRange url (wireRange start (stop - 1)) with
  | .error e => .error (.err e)
  | .ok resp =>
    if resp.status = 206 then .ok (content ++ resp.body)
    else .error .crash

/-- The trailing archive block of `download_entry` (main.rs lines
146-150): after the transfer, if the archive flag is set and the entry
carries a timestamp, set the destination's modification time to it. -/
def applyArchive (options : DownloadOptions) (lm : Option String)
    (dest : LPath) (file : LocalFile) (fs : FS) : FS :=
  if options.archive then
    match lm with
    | some t => fsInsert fs dest { file with mtime := some t }
    | none => fs
  else fs

/-- `Downloader::download_entry` (main.rs lines 99-152). Returns the
outcome together with the filesystem after the call — also on a catchable
error, since the loop in `main` keeps going with the filesystem as the
failed attempt left it (an `Overwrite` open truncates before the transfer
is attempted, a fresh `File::create` leaves an empty file behind). -/
def download_entry (client : HttpClient) (entry : DirEntry)
    (options : DownloadOptions) (fs : FS) :
    Except DlErr DownloadResult × FS :=
  match entry with
  | .Directory .. => (.ok .Skipped, fs)
  | .File _ path size lm durl _ =>
    -- dest = output.join(entry.path().strip_prefix("/")): the absolute
    -- remote path is rooted under the output directory unchanged.
    let dest := options.output ++ path
    match fs dest with
    | some file =>
      match options.conflict with
      | .Skip => (.ok .Skipped, applyArchive options lm dest file fs)
      | .Check => (.error .crash, fs)
      | .Continue =>
        if file.content.length < size then
          match download_range client file.content durl file.content.length size with
          | .error e => (.error e, fs)
          | .ok content1 =>
            let file1 : LocalFile := ⟨content1, file.mtime⟩
            (.ok .Continued, applyArchive options lm dest file1 (fsInsert fs dest file1))
        else (.ok .Skipped, applyArchive options lm dest file fs)
      | .Overwrite =>
        let fs1 := fsInsert fs dest ⟨[], file.mtime⟩
        match download client [] durl with
        | .error e => (.error e, fs1)
        | .ok content1 =>
          let file1 : LocalFile := ⟨content1, file.mtime⟩
          (.ok .Overwritten, applyArchive options lm dest file1 (fsInsert fs1 dest file1))
    | none =>
      let fs1 := fsInsert fs dest ⟨[], none⟩
      match download client [] durl with
      | .error e => (.error e, fs1)
      | .ok content1 =>
        let file1 : LocalFile := ⟨content1, none⟩
        (.ok .Complete, applyArchive options lm dest file1 (fsInsert fs1 dest file1))

/-! ### The download traversal loop (main.rs, `Command::Download`) -/

/-- Observable events of the download loop: the dry-run URL print, the
"could not download" report on a caught per-entry error, and the
"downloaded" report on success. -/
inductive Event
  | dryRunUrl (url : String)
  | failed (path : RPath) (msg : String)
  | downloaded (path : RPath) (result : DownloadResult)
deriving DecidableEq

/-- The remote side of a download session: the transfer client and
`client.entries(token, path)` as a function of the optional path. -/
structure RemoteCfg where
  client : HttpClient
  fetch : Option RPath → Except String (List DirEntry)

/-- Accumulated run state: the local filesystem, the event log, and the
pop order of queue entries (the traversal's visitation order). -/
structure RunAcc where
  fs : FS
  log : List Event
  visited : List RPath

/-- How a run ends: normally, by a propagated `?` error (`main` returns
`Err`), or by a panic. -/
inductive RunOut
  | done (acc : RunAcc)
  | aborted (msg : String) (acc : RunAcc)
  | crashed (acc : RunAcc)

/-- Summary of how a run ended. -/
inductive RunKind
  | done
  | aborted
  | crashed
deriving DecidableEq

/-- Projection to the run-end summary. -/
def RunOut.kind : RunOut → RunKind
  | .done _ => .done
  | .aborted _ _ => .aborted
  | .crashed _ => .crashed

/-- Projection to the event log. -/
def RunOut.log : RunOut → List Event
  | .done acc => acc.log
  | .aborted _ acc => acc.log
  | .crashed acc => acc.log

/-- Projection to the visitation order. -/
def RunOut.visited : RunOut → List RPath
  | .done acc => acc.visited
  | .aborted _ acc => acc.visited
  | .crashed acc => acc.visited

/-- Projection to the final filesystem. -/
def RunOut.fs : RunOut → FS
  | .done acc => acc.fs
  | .aborted _ acc => acc.fs
  | .crashed acc => acc.fs

/-- One pop from the `VecDeque` (main.rs lines 402-406): from the back
under Dfs, from the front otherwise. -/
def popQueue (mode : Recursive) (q : List DirEntry) :
    Option (DirEntry × List DirEntry) :=
  match mode with
  | .Dfs =>
    match q.getLast? with
    | some e => some (e, q.dropLast)
    | none => none
  | _ =>
    match q with
    | e :: rest => some (e, rest)
    | [] => none

/-- Pushing a directory's children (main.rs lines 448-452): reversed
under Dfs, in listing order otherwise; always appended at the back. -/
def pushChildren (mode : Recursive) (q cs : List DirEntry) : List DirEntry :=
  if mode = .Dfs then q ++ cs.reverse else q ++ cs

/-- `Path::strip_prefix` on component lists: drops the prefix, or fails
(the caller applies `?` to the failure). -/
def stripPrefixPath (base p : RPath) : Except String RPath :=
  if base.isPrefixOf p then .ok (p.drop base.length) else .error "StripPrefixError"

/-- The `while !queue.is_empty()` loop of `Command::Download` (main.rs
lines 401-454), with explicit fuel (`none` = fuel ran out; the source
loop terminates only when the queue drains). Per iteration: pop per mode;
compute the loop-local `dest` by stripping the traversal base (a failure
aborts via `?`); drop excluded entries; for a file, print the URL on
dry-run, otherwise run `download_entry`, reporting an error and
continuing, or reporting the result and continuing (a panic ends the
process); for a directory under Dfs/Bfs, `create_dir` (modelled as always
succeeding), fetch its listing — a failure aborts via `?` — and push the
children. -/
def downloadLoop (cfg : RemoteCfg) (options : DownloadOptions)
    (base : Option RPath) :
    Nat → List DirEntry → RunAcc → Option RunOut
  | 0, _, _ => none
  | fuel + 1, q, acc =>
    match popQueue options.recursive q with
    | none => some (.done acc)
    | some (entry, rest) =>
      let acc1 : RunAcc := { acc with visited := acc.visited ++ [entry.path] }
      match stripPrefixPath (base.getD []) entry.path with
      | .error e => some (.aborted e acc1)
      | .ok _ =>
        if options.exclude.any (fun pat => pat entry.path) then
          downloadLoop cfg options base fuel rest acc1
        else
          match entry with
          | .File _ path _ _ durl _ =>
            if options.dry_run then
              downloadLoop cfg options base fuel rest
                { acc1 with log := acc1.log ++ [.dryRunUrl durl] }
            else
              match download_entry cfg.client entry options acc1.fs with
              | (.error (.err m), fs1) =>
                downloadLoop cfg options base fuel rest
                  { acc1 with fs := fs1, log := acc1.log ++ [.failed path m] }
              | (.error .crash, fs1) => some (.crashed { acc1 with fs := fs1 })
              | (.ok r, fs1) =>
                downloadLoop cfg options base fuel rest
                  { acc1 with fs := fs1, log := acc1.log ++ [.downloaded path r] }
          | .Directory _ path _ _ =>
            if options.recursive ≠ .None then
              match cfg.fetch (some path) with
              | .error e => some (.aborted e acc1)
              | .ok cs =>
                downloadLoop cfg options base fuel
                  (pushChildren options.recursive rest cs) acc1
            else downloadLoop cfg options base fuel rest acc1

/-- The `Command::Download` arm for a directory share (main.rs lines
392-399 then 401-454): fetch the top-level listing at the resolved base
path — a failure aborts the run — seed the queue (reversed under Dfs),
then drain it. -/
def downloadRun (cfg : RemoteCfg) (options : DownloadOptions)
    (base : Option RPath) (fs0 : FS) (fuel : Nat) : Option RunOut :=
  match cfg.fetch base with
  | .error e => some (.aborted e ⟨fs0, [], []⟩)
  | .ok entries =>
    let q0 := if options.recursive = .Dfs then entries.reverse else entries
    downloadLoop cfg options base fuel q0 ⟨fs0, [], []⟩

/-! ### Transfer-engine theorems -/

/-- Claim C4: under the `Continue` policy with an existing destination of
local length `L` and remote declared size `R`, the client requests exactly
the byte range `[L, R)` in the inclusive wire form `bytes=L-(R-1)` — the
transfer consumes the response at exactly that header key — and when
`L < R` appends the (honest 206) response of `R - L` bytes, ending with
length `R` and outcome `Continued`; when `L ≥ R` no bytes move and the
outcome is `Skipped` with the filesystem untouched. -/
theorem continue_policy_resume
    (client : HttpClient) (n : String) (p : RPath) (sz : Nat)
    (lm : Option String) (durl vurl : String) (opts : DownloadOptions)
    (fs : FS) (old : LocalFile) (body : List Nat)
    (hconf : opts.conflict = .Continue) (harch : opts.archive = false)
    (hfs : fs (opts.output ++ p) = some old)
    (hresp : client.getRange durl (wireRange old.content.length (sz - 1)) =
      .ok ⟨206, body⟩)
    (hbody : body.length = sz - old.content.length) :
    (old.content.length < sz →
      download_entry client (.File n p sz lm durl vurl) opts fs =
        (.ok .Continued,
          fsInsert fs (opts.output ++ p) ⟨old.content ++ body, old.mtime⟩) ∧
      (old.content ++ body).length = sz) ∧
    (sz ≤ old.content.length →
      download_entry client (.File n p sz lm durl vurl) opts fs =
        (.ok .Skipped, fs)) := by
  constructor
  · intro hlt
    constructor
    · simp only [download_entry, hfs, hconf, if_pos hlt, download_range, hresp,
        applyArchive, harch, Bool.false_eq_true, if_false]
      simp
    · simp only [List.length_append, hbody]
      omega
  · intro hge
    simp only [download_entry, hfs, hconf, if_neg (Nat.not_lt.mpr hge),
      applyArchive, harch, Bool.false_eq_true, if_false]

/-- Transfer client for the `continue_policy_resume` witness: honest 206
responses for the two ranges the witness exercises. -/
def c4client : HttpClient :=
  ⟨fun _ => .error "no",
   fun _ h =>
     if h = wireRange 1 2 then .ok ⟨206, [9, 9]⟩
     else if h = wireRange 1 0 then .ok ⟨206, []⟩
     else .error "no"⟩

/-- Options for the `continue_policy_resume` witness. -/
def c4opts : DownloadOptions := ⟨false, ["out"], false, .Continue, [], [], .None⟩

/-- Local filesystem for the `continue_policy_resume` witness: one byte
already present at the destination. -/
def c4fs : FS :=
  fun q => if q = ["out", "f.bin"] then some ⟨[5], none⟩ else none

/-- Witness for `continue_policy_resume`: resuming a 1-byte local file
against remote size 3 appends the 2 response bytes and yields `Continued`;
against remote size 1 it yields `Skipped` and leaves the filesystem
untouched. -/
theorem continue_policy_resume_witness :
    download_entry c4client (.File "f.bin" ["f.bin"] 3 none "u" "v") c4opts c4fs =
      (.ok .Continued, fsInsert c4fs ["out", "f.bin"] ⟨[5, 9, 9], none⟩) ∧
    download_entry c4client (.File "f.bin" ["f.bin"] 1 none "u" "v") c4opts c4fs =
      (.ok .Skipped, c4fs) := by
  constructor
  · exact ((continue_policy_resume c4client "f.bin" ["f.bin"] 3 none "u" "v"
      c4opts c4fs ⟨[5], none⟩ [9, 9] rfl rfl rfl rfl (by decide)).1 (by decide)).1
  · exact (continue_policy_resume c4client "f.bin" ["f.bin"] 1 none "u" "v"
      c4opts c4fs ⟨[5], none⟩ [] rfl rfl rfl rfl (by decide)).2 (by decide)

/-- Transfer client whose range responses come back with status 200. -/
def c5client : HttpClient :=
  ⟨fun _ => .error "no", fun _ _ => .ok ⟨200, [1, 2, 3]⟩⟩

/-- A partially downloaded file entry, then a second pending file. -/
def c5entryA : DirEntry := .File "a.bin" ["a.bin"] 2 none "ua" "va"

/-- The second queued file of the C5 scenario. -/
def c5entryB : DirEntry := .File "b.bin" ["b.bin"] 2 none "ub" "vb"

/-- Remote side of the C5 scenario. -/
def c5cfg : RemoteCfg :=
  ⟨c5client, fun p => if p = none then .ok [c5entryA, c5entryB] else .error "nf"⟩

/-- Options of the C5 scenario: resume policy, non-recursive. -/
def c5opts : DownloadOptions := ⟨false, ["out"], false, .Continue, [], [], .None⟩

/-- Local filesystem of the C5 scenario: one byte of `a.bin` present. -/
def c5fs : FS := fun q => if q = ["out", "a.bin"] then some ⟨[7], none⟩ else none

/-- Claim C5: a non-206 reply to a range request is indeed never treated
as a successful transfer — but it is not an entry-fatal typed error
either: `download_range` hits `todo!()` and panics, and the panic ends
the whole process, so the walk over the remaining entries does not
continue. First part: any accepted non-206 reply to the range request
makes `download_range` crash. Second part: in a run where the first
file's range reply has status 200, the run crashes after visiting only
that entry, with nothing reported and the second file never visited. -/
theorem range_non206_crashes
    (client : HttpClient) (content : List Nat) (url : String)
    (start stop : Nat) (resp : HttpResp)
    (hresp : client.getRange url (wireRange start (stop - 1)) = .ok resp)
    (h206 : resp.status ≠ 206) :
    download_range client content url start stop = .error .crash ∧
    (downloadRun c5cfg c5opts none c5fs 10).map RunOut.kind = some .crashed ∧
    (downloadRun c5cfg c5opts none c5fs 10).map RunOut.visited =
      some [["a.bin"]] ∧
    (downloadRun c5cfg c5opts none c5fs 10).map RunOut.log = some [] := by
  refine ⟨?_, rfl, rfl, rfl⟩
  simp only [download_range, hresp, if_neg h206]

/-- Witness for `range_non206_crashes` at the C5 scenario's own client. -/
theorem range_non206_crashes_witness :
    download_range c5client [7] "ua" 1 2 = .error .crash ∧
    (downloadRun c5cfg c5opts none c5fs 10).map RunOut.kind = some .crashed := by
  have h := range_non206_crashes c5client [7] "ua" 1 2 ⟨200, [1, 2, 3]⟩ rfl
    (by decide)
  exact ⟨h.1, h.2.1⟩

/-- Transfer client of the C6 counterexample (never consulted: the Skip
policy transfers nothing). -/
def c6client : HttpClient := ⟨fun _ => .error "no", fun _ _ => .error "no"⟩

/-- Options of the C6 counterexample: Skip policy with archive mode on. -/
def c6opts : DownloadOptions := ⟨false, ["out"], true, .Skip, [], [], .None⟩

/-- Local filesystem of the C6 counterexample: the destination exists
with modification time "5". -/
def c6fs : FS :=
  fun q => if q = ["out", "f.txt"] then some ⟨[1, 2], some "5"⟩ else none

/-- The entry of the C6 counterexample, carrying remote timestamp "99". -/
def c6entry : DirEntry := .File "f.txt" ["f.txt"] 2 (some "99") "u" "v"

/-- Claim C6, as stated, is false: the archive block of `download_entry`
runs unconditionally on the outcome, so a transfer whose outcome is
`Skipped` (here: Skip policy over an existing destination) still has the
local file's modification time rewritten from "5" to the entry's "99". -/
theorem skipped_still_sets_mtime_cex :
    (download_entry c6client c6entry c6opts c6fs).1 = .ok .Skipped ∧
    (c6fs ["out", "f.txt"]).map LocalFile.mtime = some (some "5") ∧
    ((download_entry c6client c6entry c6opts c6fs).2 ["out", "f.txt"]).map
      LocalFile.mtime = some (some "99") := by
  refine ⟨rfl, rfl, rfl⟩

/-- Claim C6 (amended): with the preserve-mtime (archive) flag set and an
entry carrying a timestamp, every `download_entry` call on a file entry
that returns without error — whatever its outcome, `Skipped` included —
leaves the destination's modification time set to the entry's timestamp. -/
theorem archive_sets_mtime
    (client : HttpClient) (n : String) (p : RPath) (sz : Nat) (t : String)
    (durl vurl : String) (opts : DownloadOptions) (fs : FS) (r : DownloadResult)
    (harch : opts.archive = true)
    (hok : (download_entry client (.File n p sz (some t) durl vurl) opts fs).1 =
      .ok r) :
    (((download_entry client (.File n p sz (some t) durl vurl) opts fs).2)
        (opts.output ++ p)).map LocalFile.mtime = some (some t) := by
  simp only [download_entry] at hok ⊢
  cases hfs : fs (opts.output ++ p) with
  | none =>
    simp only [hfs] at hok
    cases hdl : download client [] durl with
    | error e => simp [hdl] at hok
    | ok content1 => simp [hdl, applyArchive, harch, fsInsert]
  | some file =>
    simp only [hfs] at hok
    cases hconf : opts.conflict with
    | Skip => simp [applyArchive, harch, fsInsert]
    | Check => simp [hconf] at hok
    | Continue =>
      simp only [hconf] at hok
      by_cases hlt : file.content.length < sz
      · cases hdl : download_range client file.content durl file.content.length sz with
        | error e => simp [hlt, hdl] at hok
        | ok content1 => simp [hlt, hdl, applyArchive, harch, fsInsert]
      · simp [hlt, applyArchive, harch, fsInsert]
    | Overwrite =>
      simp only [hconf] at hok
      cases hdl : download client [] durl with
      | error e => simp [hdl] at hok
      | ok content1 => simp [hdl, applyArchive, harch, fsInsert]

/-- Witness for `archive_sets_mtime`, at the C6 scenario: outcome
`Skipped`, yet the mtime is set to the entry's timestamp. -/
theorem archive_sets_mtime_witness :
    ((download_entry c6client c6entry c6opts c6fs).2 ["out", "f.txt"]).map
      LocalFile.mtime = some (some "99") :=
  archive_sets_mtime c6client "f.txt" ["f.txt"] 2 "99" "u" "v" c6opts c6fs
    .Skipped rfl rfl

/-- Transfer client of the C7 scenario: one 1-byte file body. -/
def c7client : HttpClient := ⟨fun _ => .ok ⟨200, [5]⟩, fun _ _ => .error "no"⟩

/-- Options of the C7 scenario. -/
def c7opts : DownloadOptions := ⟨false, ["out"], false, .Skip, [], [], .None⟩

/-- The C7 entry: remote path `/sub/a.txt`, downloaded in a session whose
traversal base is `/sub`. -/
def c7entry : DirEntry := .File "a.txt" ["sub", "a.txt"] 1 none "u" "v"

/-- Claim C7 is contradicted by the code: for a session with traversal
base `/sub`, the loop's own destination for this entry is the base-relative
`out/a.txt` (first conjunct, the loop's `strip_prefix(base)` — also the
path under which the loop creates directories), but `download_entry`
recomputes the destination with `strip_prefix("/")` and writes the file to
`out/sub/a.txt` (second conjunct), leaving nothing at `out/a.txt` (third
conjunct). -/
theorem dest_ignores_base_cex :
    stripPrefixPath ["sub"] ["sub", "a.txt"] = .ok ["a.txt"] ∧
    (download_entry c7client c7entry c7opts (fun _ => none)).2
      ["out", "sub", "a.txt"] = some ⟨[5], none⟩ ∧
    (download_entry c7client c7entry c7opts (fun _ => none)).2
      ["out", "a.txt"] = none := by
  refine ⟨rfl, rfl, rfl⟩

/-! ### Traversal-loop theorems -/

/-- The directory whose listing fetch fails in the C2 scenario. -/
def c2dir : DirEntry := .Directory "d" ["d"] "lm" "v"

/-- The file still queued behind the failing directory. -/
def c2file : DirEntry := .File "f" ["f"] 1 none "uf" "vf"

/-- Remote side of the C2 scenario: the top-level listing succeeds, the
fetch for the popped directory fails. -/
def c2cfg : RemoteCfg :=
  ⟨⟨fun _ => .ok ⟨200, [1]⟩, fun _ _ => .error "no"⟩,
   fun p => if p = none then .ok [c2dir, c2file] else .error "dirfail"⟩

/-- Options of the C2 scenario: recursive BFS download. -/
def c2opts : DownloadOptions := ⟨false, ["out"], false, .Skip, [], [], .Bfs⟩

/-- Claim C2, as stated, is false: a failed metadata fetch for a popped
directory is not reported-and-skipped — the `?` on `client.entries` makes
it abort the whole run. In the scenario the directory is popped first,
its fetch fails, the run ends `aborted` with an empty report log, and the
still-queued file `/f` is never visited. -/
theorem dir_fetch_failure_aborts_cex :
    (downloadRun c2cfg c2opts none (fun _ => none) 10).map RunOut.kind =
      some .aborted ∧
    (downloadRun c2cfg c2opts none (fun _ => none) 10).map RunOut.log =
      some [] ∧
    (downloadRun c2cfg c2opts none (fun _ => none) 10).map RunOut.visited =
      some [["d"]] := by
  refine ⟨rfl, rfl, rfl⟩

/-- Claim C2 (amended): during the walk, a failed transfer of a file
entry is reported and traversal continues with the remaining queued
entries (first part), while a failed metadata fetch for a popped
directory — like a failed initial top-level listing — aborts the run
(second part). -/
theorem per_entry_failure_policy :
    (∀ (cfg : RemoteCfg) (opts : DownloadOptions) (base : Option RPath)
       (fuel : Nat) (q rest : List DirEntry) (acc : RunAcc)
       (n : String) (p : RPath) (sz : Nat) (lm : Option String)
       (durl vurl : String) (rp : RPath) (m : String) (fs1 : FS),
      popQueue opts.recursive q = some (.File n p sz lm durl vurl, rest) →
      stripPrefixPath (base.getD []) p = .ok rp →
      opts.exclude.any (fun pat => pat p) = false →
      opts.dry_run = false →
      download_entry cfg.client (.File n p sz lm durl vurl) opts acc.fs =
        (.error (.err m), fs1) →
      downloadLoop cfg opts base (fuel + 1) q acc =
        downloadLoop cfg opts base fuel rest
          ⟨fs1, acc.log ++ [.failed p m], acc.visited ++ [p]⟩) ∧
    (∀ (cfg : RemoteCfg) (opts : DownloadOptions) (base : Option RPath)
       (fuel : Nat) (q rest : List DirEntry) (acc : RunAcc)
       (n : String) (p : RPath) (lm vurl : String) (rp : RPath) (e : String),
      popQueue opts.recursive q = some (.Directory n p lm vurl, rest) →
      stripPrefixPath (base.getD []) p = .ok rp →
      opts.exclude.any (fun pat => pat p) = false →
      opts.recursive ≠ .None →
      cfg.fetch (some p) = .error e →
      downloadLoop cfg opts base (fuel + 1) q acc =
        some (.aborted e ⟨acc.fs, acc.log, acc.visited ++ [p]⟩)) := by
  constructor
  · intro cfg opts base fuel q rest acc n p sz lm durl vurl rp m fs1
      hpop hstrip hexc hdry hdl
    cases acc with
    | mk fs log visited =>
      simp only [downloadLoop, hpop, DirEntry.path, hstrip, hexc, hdry,
        Bool.false_eq_true, if_false] at hdl ⊢
      rw [hdl]
  · intro cfg opts base fuel q rest acc n p lm vurl rp e
      hpop hstrip hexc hrec hfetch
    cases acc with
    | mk fs log visited =>
      simp only [downloadLoop, hpop, DirEntry.path, hstrip, hexc,
        Bool.false_eq_true, if_false, hrec, ne_eq, not_false_eq_true,
        if_true, hfetch]

/-- Remote side whose transfer client always fails (witness for the
caught per-file error). -/
def c2wcfg : RemoteCfg :=
  ⟨⟨fun _ => .error "neterr", fun _ _ => .error "neterr"⟩, fun _ => .error "x"⟩

/-- Witness for `per_entry_failure_policy`: a file whose transfer fails is
reported and the loop continues; a directory whose fetch fails aborts. -/
theorem per_entry_failure_policy_witness :
    downloadLoop c2wcfg c2opts none 4 [c2file] ⟨fun _ => none, [], []⟩ =
      downloadLoop c2wcfg c2opts none 3 []
        ⟨fsInsert (fun _ => none) ["out", "f"] ⟨[], none⟩,
         [.failed ["f"] "neterr"], [["f"]]⟩ ∧
    downloadLoop c2cfg c2opts none 4 [c2dir] ⟨fun _ => none, [], []⟩ =
      some (.aborted "dirfail" ⟨fun _ => none, [], [["d"]]⟩) := by
  constructor
  · exact per_entry_failure_policy.1 c2wcfg c2opts none 3 [c2file] []
      ⟨fun _ => none, [], []⟩ "f" ["f"] 1 none "uf" "vf" ["f"]
      "neterr" (fsInsert (fun _ => none) ["out", "f"] ⟨[], none⟩)
      rfl rfl rfl rfl rfl
  · exact per_entry_failure_policy.2 c2cfg c2opts none 3 [c2dir] []
      ⟨fun _ => none, [], []⟩ "d" ["d"] "lm" "v" ["d"] "dirfail"
      rfl rfl rfl (by decide) rfl

/-! ### Traversal-order theorems (C8) -/

/-- The file child `/A/1` of the C8 example tree. -/
def ex1 : DirEntry := .File "1" ["A", "1"] 1 none "u1" "v1"

/-- The directory child `/A/2` of the C8 example tree. -/
def ex2 : DirEntry := .Directory "2" ["A", "2"] "lm2" "v2"

/-- The file `/A/2/x` of the C8 example tree. -/
def exx : DirEntry := .File "x" ["A", "2", "x"] 1 none "ux" "vx"

/-- Remote side of the C8 example: the fixed backing tree `/A` with
children `/A/1` (file) and `/A/2` (directory) containing `/A/2/x`. -/
def exCfg : RemoteCfg :=
  ⟨⟨fun _ => .ok ⟨200, []⟩, fun _ _ => .error "no"⟩,
   fun p =>
     if p = some ["A"] then .ok [ex1, ex2]
     else if p = some ["A", "2"] then .ok [exx]
     else .error "nf"⟩

/-- DFS options of the C8 example (dry run: visitation order only). -/
def exOptsDfs : DownloadOptions := ⟨true, ["out"], false, .Skip, [], [], .Dfs⟩

/-- BFS options of the C8 example. -/
def exOptsBfs : DownloadOptions := ⟨true, ["out"], false, .Skip, [], [], .Bfs⟩

/-- Claim C8: the queue is popped from the back under Dfs and from the
front under Bfs (first two parts); an expanded directory's children are
appended in reverse order under Dfs and in listing order under Bfs (next
two parts); and over the fixed backing tree `/A` (children `/A/1` file,
`/A/2` dir containing `/A/2/x`) the run visits `1, 2, x` under Dfs, and
under Bfs visits `1` and `2` before `x` (last two parts). -/
theorem traversal_order
    (cfg : RemoteCfg) (opts : DownloadOptions) (base : Option RPath)
    (fuel : Nat) (q rest cs : List DirEntry) (acc : RunAcc)
    (e : DirEntry) (n : String) (p : RPath) (lm vurl : String) (rp : RPath)
    (hpop : popQueue opts.recursive q = some (.Directory n p lm vurl, rest))
    (hstrip : stripPrefixPath (base.getD []) p = .ok rp)
    (hexc : opts.exclude.any (fun pat => pat p) = false)
    (hfetch : cfg.fetch (some p) = .ok cs) :
    popQueue .Dfs (q ++ [e]) = some (e, q) ∧
    popQueue .Bfs (e :: q) = some (e, q) ∧
    (opts.recursive = .Dfs →
      downloadLoop cfg opts base (fuel + 1) q acc =
        downloadLoop cfg opts base fuel (rest ++ cs.reverse)
          ⟨acc.fs, acc.log, acc.visited ++ [p]⟩) ∧
    (opts.recursive = .Bfs →
      downloadLoop cfg opts base (fuel + 1) q acc =
        downloadLoop cfg opts base fuel (rest ++ cs)
          ⟨acc.fs, acc.log, acc.visited ++ [p]⟩) ∧
    (downloadRun exCfg exOptsDfs (some ["A"]) (fun _ => none) 10).map
      RunOut.visited = some [["A", "1"], ["A", "2"], ["A", "2", "x"]] ∧
    (downloadRun exCfg exOptsBfs (some ["A"]) (fun _ => none) 10).map
      RunOut.visited = some [["A", "1"], ["A", "2"], ["A", "2", "x"]] := by
  refine ⟨?_, rfl, ?_, ?_, rfl, rfl⟩
  · simp [popQueue, List.getLast?_concat, List.dropLast_concat]
  · intro hrec
    cases acc with
    | mk fs log visited =>
      simp only [downloadLoop, hpop, DirEntry.path, hstrip, hexc,
        Bool.false_eq_true, if_false]
      simp [hrec, hfetch, pushChildren]
  · intro hrec
    cases acc with
    | mk fs log visited =>
      simp only [downloadLoop, hpop, DirEntry.path, hstrip, hexc,
        Bool.false_eq_true, if_false]
      simp [hrec, hfetch, pushChildren]

/-- Witness for `traversal_order`, instantiating the directory-expansion
step at the C8 example's own root directory under both orders. -/
theorem traversal_order_witness :
    downloadLoop exCfg exOptsDfs (some ["A"]) 4 [ex2] ⟨fun _ => none, [], []⟩ =
      downloadLoop exCfg exOptsDfs (some ["A"]) 3 [exx]
        ⟨fun _ => none, [], [["A", "2"]]⟩ ∧
    downloadLoop exCfg exOptsBfs (some ["A"]) 4 [ex2] ⟨fun _ => none, [], []⟩ =
      downloadLoop exCfg exOptsBfs (some ["A"]) 3 [exx]
        ⟨fun _ => none, [], [["A", "2"]]⟩ := by
  constructor
  · exact (traversal_order exCfg exOptsDfs (some ["A"]) 3 [ex2] [] [exx]
      ⟨fun _ => none, [], []⟩ ex1 "2" ["A", "2"] "lm2" "v2" ["2"]
      rfl rfl rfl rfl).2.2.1 rfl
  · exact (traversal_order exCfg exOptsBfs (some ["A"]) 3 [ex2] [] [exx]
      ⟨fun _ => none, [], []⟩ ex1 "2" ["A", "2"] "lm2" "v2" ["2"]
      rfl rfl rfl rfl).2.2.2.1 rfl

/-! ### Include patterns (C9) -/

lemma download_entry_includePats (client : HttpClient) (entry : DirEntry)
    (d : Bool) (o : LPath) (a : Bool) (c : ConflictAction)
    (i i' : List String) (e : List (RPath → Bool)) (r : Recursive) (fs : FS) :
    download_entry client entry ⟨d, o, a, c, i, e, r⟩ fs =
      download_entry client entry ⟨d, o, a, c, i', e, r⟩ fs := by
  cases entry with
  | Directory n p lm vurl => rfl
  | File n p sz lm durl vurl =>
    simp only [download_entry]
    cases fs (o ++ p) with
    | none => cases download client [] durl <;> rfl
    | some file =>
      cases c with
      | Skip => rfl
      | Check => rfl
      | Continue =>
        by_cases h : file.content.length < sz
        · simp only [if_pos h]
          cases download_range client file.content durl file.content.length sz <;> rfl
        · simp only [if_neg h]
          rfl
      | Overwrite => cases download client [] durl <;> rfl

lemma downloadLoop_includePats (cfg : RemoteCfg) (base : Option RPath)
    (d : Bool) (o : LPath) (a : Bool) (c : ConflictAction)
    (i i' : List String) (e : List (RPath → Bool)) (r : Recursive) :
    ∀ fuel q acc,
      downloadLoop cfg ⟨d, o, a, c, i, e, r⟩ base fuel q acc =
        downloadLoop cfg ⟨d, o, a, c, i', e, r⟩ base fuel q acc := by
  intro fuel
  induction fuel with
  | zero => intro q acc; rfl
  | succ fuel ih =>
    intro q acc
    cases acc with
    | mk fs log visited =>
      simp only [downloadLoop]
      split
      · rfl
      · split
        · rfl
        · split
          · exact ih _ _
          · split
            · split
              · exact ih _ _
              · rw [download_entry_includePats cfg.client _ d o a c i i' e r]
                split <;> first | rfl | exact ih _ _
            · split
              · split <;> first | rfl | exact ih _ _
              · exact ih _ _

lemma downloadRun_includePats (cfg : RemoteCfg) (base : Option RPath)
    (fs0 : FS) (fuel : Nat) (d : Bool) (o : LPath) (a : Bool)
    (c : ConflictAction) (i i' : List String) (e : List (RPath → Bool))
    (r : Recursive) :
    downloadRun cfg ⟨d, o, a, c, i, e, r⟩ base fs0 fuel =
      downloadRun cfg ⟨d, o, a, c, i', e, r⟩ base fs0 fuel := by
  simp only [downloadRun]
  split
  · rfl
  · exact downloadLoop_includePats cfg base d o a c i i' e r fuel _ _

/-- The file of the C9 scenario; its path `/a/b.txt` matches no include
pattern of `c9opts`. -/
def c9file : DirEntry := .File "b.txt" ["a", "b.txt"] 1 none "u9" "v9"

/-- Remote side of the C9 scenario. -/
def c9cfg : RemoteCfg :=
  ⟨⟨fun _ => .ok ⟨200, [3]⟩, fun _ _ => .error "no"⟩,
   fun p => if p = none then .ok [c9file] else .error "nf"⟩

/-- Options of the C9 scenario: the include pattern set `["/xyz/*"]` is
supplied, which `/a/b.txt` does not match. -/
def c9opts : DownloadOptions :=
  ⟨false, ["out"], false, .Skip, ["/xyz/*"], [], .None⟩

/-- Claim C9 is contradicted by the code: the download loop never
consults the include pattern set. First part: with include patterns
`["/xyz/*"]` supplied, the entry `/a/b.txt` — which matches none of
them — is transferred anyway. Second part: the run result is entirely
independent of the include pattern set. -/
theorem includes_not_applied :
    (downloadRun c9cfg c9opts none (fun _ => none) 5).map RunOut.log =
      some [.downloaded ["a", "b.txt"] .Complete] ∧
    (∀ (cfg : RemoteCfg) (base : Option RPath) (fs0 : FS) (fuel : Nat)
       (opts : DownloadOptions) (i : List String),
      downloadRun cfg { opts with includePats := i } base fs0 fuel =
        downloadRun cfg opts base fs0 fuel) := by
  constructor
  · rfl
  · intro cfg base fs0 fuel opts i
    cases opts with
    | mk d o a c i0 e r =>
      exact downloadRun_includePats cfg base fs0 fuel d o a c i i0 e r

/-! ### Remote listing records (seafile.rs, `DirEnt` and `Client::entries`)

The listing endpoint's raw records are JSON objects. `DirEnt` carries
`#[serde(untagged)]`: deserialization tries the `Directory` variant's
field set first, then the `File` variant's, committing to the first that
matches, and fails if neither does. (The source's own comment notes the
enum is *not* tagged by `is_dir`, pending serde issues 745/880.) We embed
the JSON values the fields can take and the untagged field-extraction
semantics: a required field must be present with the right shape, extra
fields are ignored, and an `Option` field may be absent or null.
`DateTime<Utc>` parsing is abstracted: a timestamp field must be a
string, carried opaquely. -/

/-- A JSON value, restricted to the shapes the record fields can take. -/
inductive JVal
  | str (s : String)
  | num (n : Nat)
  | bool (b : Bool)
  | null
deriving DecidableEq

/-- A JSON object as an ordered key-value list. -/
abbrev JObj := List (String × JVal)

/-- First field with the given key. -/
def getField (o : JObj) (k : String) : Option JVal :=
  (o.find? (fun kv => kv.1 == k)).map (·.2)

/-- `DirEnt` (seafile.rs lines 49-71): the raw listing record, as decoded. -/
inductive DirEnt
  | Directory (is_dir : Bool) (last_modified : String) (path : String)
      (name : String) (size : Nat)
  | File (is_dir : Bool) (last_modified : String) (path : String)
      (name : String) (size : Nat) (encoded_thumbnail_src : Option String)
deriving DecidableEq

/-- `DirEnt::is_file` (seafile.rs lines 74-79). -/
def DirEnt.is_file : DirEnt → Bool
  | .Directory .. => false
  | .File .. => true

/-- `DirEnt::is_dir` (seafile.rs lines 81-83): literally `!is_file()`. -/
def DirEnt.is_dir (e : DirEnt) : Bool := !e.is_file

/-- `DirEnt::size` (seafile.rs lines 85-90). -/
def DirEnt.size : DirEnt → Option Nat
  | .Directory .. => none
  | .File _ _ _ _ sz _ => some sz

/-- `DirEnt::last_modified` (seafile.rs lines 92-98). -/
def DirEnt.last_modified : DirEnt → String
  | .Directory _ lm _ _ _ => lm
  | .File _ lm _ _ _ _ => lm

/-- `DirEnt::name` (seafile.rs lines 100-104). -/
def DirEnt.name : DirEnt → String
  | .Directory _ _ _ n _ => n
  | .File _ _ _ n _ _ => n

/-- `DirEnt::path` (seafile.rs lines 106-110). -/
def DirEnt.path : DirEnt → String
  | .Directory _ _ p _ _ => p
  | .File _ _ p _ _ _ => p

/-- Required boolean field. -/
def reqBool (o : JObj) (k : String) : Option Bool :=
  match getField o k with
  | some (.bool b) => some b
  | _ => none

/-- Required string field (also used for `DateTime` and `PathBuf` fields,
both decoded from JSON strings). -/
def reqStr (o : JObj) (k : String) : Option String :=
  match getField o k with
  | some (.str s) => some s
  | _ => none

/-- Required unsigned integer field. -/
def reqNum (o : JObj) (k : String) : Option Nat :=
  match getField o k with
  | some (.num n) => some n
  | _ => none

/-- Optional string field: absent or null is `none`. -/
def optStr (o : JObj) (k : String) : Option (Option String) :=
  match getField o k with
  | none => some none
  | some .null => some none
  | some (.str s) => some (some s)
  | some _ => none

/-- The `Directory` variant's untagged field set: `is_dir`,
`last_modified`, `folder_path`, `folder_name`, `size`. -/
def decodeDirectory (o : JObj) : Option DirEnt :=
  (reqBool o "is_dir").bind fun d =>
  (reqStr o "last_modified").bind fun lm =>
  (reqStr o "folder_path").bind fun p =>
  (reqStr o "folder_name").bind fun n =>
  (reqNum o "size").map fun sz => .Directory d lm p n sz

/-- The `File` variant's untagged field set: `is_dir`, `last_modified`,
`file_path`, `file_name`, `size`, optional `encoded_thumbnail_src`. -/
def decodeFile (o : JObj) : Option DirEnt :=
  (reqBool o "is_dir").bind fun d =>
  (reqStr o "last_modified").bind fun lm =>
  (reqStr o "file_path").bind fun p =>
  (reqStr o "file_name").bind fun n =>
  (reqNum o "size").bind fun sz =>
  (optStr o "encoded_thumbnail_src").map fun th => .File d lm p n sz th

/-- `#[serde(untagged)]` decoding of one raw record: try the variants in
declaration order, commit to the first that matches, fail otherwise. -/
def decodeDirEnt (o : JObj) : Option DirEnt :=
  match decodeDirectory o with
  | some e => some e
  | none => decodeFile o

/-- `Client::dir_url` (seafile.rs lines 138-147): the directory-browse
route `/d/{token}/` with an optional `p` query parameter, templated onto
the base origin. -/
def dir_url (base token : String) (path : Option String) : String :=
  base ++ "/d/" ++ token ++ "/" ++
    (match path with
     | some p => "?p=" ++ p
     | none => "")

/-- `Client::file_url` (seafile.rs lines 149-159): the file route
`/d/{token}/files/` with the `p` query parameter and, when `dl` is set,
the `dl=1` download flag. -/
def file_url (base token : String) (path : String) (dl : Bool) : String :=
  base ++ "/d/" ++ token ++ "/files/" ++ "?p=" ++ path ++
    (if dl then "&dl=1" else "")

/-- `PathBuf` component view of an absolute remote path string. -/
def splitPath (s : String) : RPath :=
  (s.splitOn "/").filter (fun c => c != "")

/-- The per-record body of `Client::entries` (seafile.rs lines 217-239):
map a raw record to the public `DirEntry`, synthesizing view/download
URLs. `none` models a panic: the `size().unwrap()` on the file branch or
the final `unreachable!()` arm. -/
def entriesOne (base token : String) (e : DirEnt) : Option DirEntry :=
  if e.is_file then
    match e.size with
    | some sz =>
      some (.File e.name (splitPath e.path) sz (some e.last_modified)
        (file_url base token e.path true) (file_url base token e.path false))
    | none => none
  else if e.is_dir then
    some (.Directory e.name (splitPath e.path) e.last_modified
      (dir_url base token (some e.path)))
  else none

/-- `Client::entries` over a decoded listing: the whole mapping succeeds
iff no record panics. -/
def entriesMap (base token : String) (es : List DirEnt) :
    Option (List DirEntry) :=
  es.mapM (entriesOne base token)

/-! ### Theorems about the listing records (C3, C10) -/

lemma getField_cons_self (k : String) (v : JVal) (o : JObj) :
    getField ((k, v) :: o) k = some v := by
  simp [getField, List.find?_cons]

lemma getField_cons_ne (k' : String) (v : JVal) (o : JObj) (k : String)
    (hne : (k' == k) = false) : getField ((k', v) :: o) k = getField o k := by
  simp [getField, List.find?_cons, hne]

lemma decodeDirectory_cons_flag (b : Bool) (o : JObj) :
    decodeDirectory (("is_dir", JVal.bool b) :: o) =
      (reqStr o "last_modified").bind fun lm =>
      (reqStr o "folder_path").bind fun p =>
      (reqStr o "folder_name").bind fun n =>
      (reqNum o "size").map fun sz => DirEnt.Directory b lm p n sz := by
  unfold decodeDirectory
  rw [show reqBool (("is_dir", JVal.bool b) :: o) "is_dir" = some b by
    simp [reqBool, getField_cons_self]]
  rw [show reqStr (("is_dir", JVal.bool b) :: o) "last_modified" =
      reqStr o "last_modified" by
    simp [reqStr, getField_cons_ne "is_dir" (JVal.bool b) o "last_modified" rfl]]
  rw [show reqStr (("is_dir", JVal.bool b) :: o) "folder_path" =
      reqStr o "folder_path" by
    simp [reqStr, getField_cons_ne "is_dir" (JVal.bool b) o "folder_path" rfl]]
  rw [show reqStr (("is_dir", JVal.bool b) :: o) "folder_name" =
      reqStr o "folder_name" by
    simp [reqStr, getField_cons_ne "is_dir" (JVal.bool b) o "folder_name" rfl]]
  rw [show reqNum (("is_dir", JVal.bool b) :: o) "size" = reqNum o "size" by
    simp [reqNum, getField_cons_ne "is_dir" (JVal.bool b) o "size" rfl]]
  rfl

lemma decodeFile_cons_flag (b : Bool) (o : JObj) :
    decodeFile (("is_dir", JVal.bool b) :: o) =
      (reqStr o "last_modified").bind fun lm =>
      (reqStr o "file_path").bind fun p =>
      (reqStr o "file_name").bind fun n =>
      (reqNum o "size").bind fun sz =>
      (optStr o "encoded_thumbnail_src").map fun th =>
        DirEnt.File b lm p n sz th := by
  unfold decodeFile
  rw [show reqBool (("is_dir", JVal.bool b) :: o) "is_dir" = some b by
    simp [reqBool, getField_cons_self]]
  rw [show reqStr (("is_dir", JVal.bool b) :: o) "last_modified" =
      reqStr o "last_modified" by
    simp [reqStr, getField_cons_ne "is_dir" (JVal.bool b) o "last_modified" rfl]]
  rw [show reqStr (("is_dir", JVal.bool b) :: o) "file_path" =
      reqStr o "file_path" by
    simp [reqStr, getField_cons_ne "is_dir" (JVal.bool b) o "file_path" rfl]]
  rw [show reqStr (("is_dir", JVal.bool b) :: o) "file_name" =
      reqStr o "file_name" by
    simp [reqStr, getField_cons_ne "is_dir" (JVal.bool b) o "file_name" rfl]]
  rw [show reqNum (("is_dir", JVal.bool b) :: o) "size" = reqNum o "size" by
    simp [reqNum, getField_cons_ne "is_dir" (JVal.bool b) o "size" rfl]]
  rw [show optStr (("is_dir", JVal.bool b) :: o) "encoded_thumbnail_src" =
      optStr o "encoded_thumbnail_src" by
    simp [optStr,
      getField_cons_ne "is_dir" (JVal.bool b) o "encoded_thumbnail_src" rfl]]
  rfl

lemma decodeDirectory_is_dir {o : JObj} {e : DirEnt}
    (h : decodeDirectory o = some e) : e.is_dir = true := by
  unfold decodeDirectory at h
  simp only [Option.bind_eq_some, Option.map_eq_some'] at h
  obtain ⟨d, -, lm, -, p, -, n, -, sz, -, he⟩ := h
  subst he
  rfl

lemma decodeFile_is_dir {o : JObj} {e : DirEnt}
    (h : decodeFile o = some e) : e.is_dir = false := by
  unfold decodeFile at h
  simp only [Option.bind_eq_some, Option.map_eq_some'] at h
  obtain ⟨d, -, lm, -, p, -, n, -, sz, -, th, -, he⟩ := h
  subst he
  rfl

lemma decodeDirectory_isSome_flag (b₁ b₂ : Bool) (o : JObj) :
    (decodeDirectory (("is_dir", JVal.bool b₁) :: o)).isSome =
      (decodeDirectory (("is_dir", JVal.bool b₂) :: o)).isSome := by
  rw [decodeDirectory_cons_flag, decodeDirectory_cons_flag]
  cases reqStr o "last_modified" <;> cases reqStr o "folder_path" <;>
    cases reqStr o "folder_name" <;> cases reqNum o "size" <;> rfl

lemma decodeFile_isSome_flag (b₁ b₂ : Bool) (o : JObj) :
    (decodeFile (("is_dir", JVal.bool b₁) :: o)).isSome =
      (decodeFile (("is_dir", JVal.bool b₂) :: o)).isSome := by
  rw [decodeFile_cons_flag, decodeFile_cons_flag]
  cases reqStr o "last_modified" <;> cases reqStr o "file_path" <;>
    cases reqStr o "file_name" <;> cases reqNum o "size" <;>
    cases optStr o "encoded_thumbnail_src" <;> rfl

/-- The C3 counterexample record: directory-shaped fields with the
explicit `is_dir` flag set to `false`. -/
def c3rec : JObj :=
  [("is_dir", JVal.bool false), ("last_modified", JVal.str "2024"),
   ("folder_path", JVal.str "/x"), ("folder_name", JVal.str "x"),
   ("size", JVal.num 0)]

/-- Claim C3, as stated, is false: decoding is untagged, so this record,
whose explicit is-directory flag is `false`, still decodes as a
`Directory` record (classified `is_dir() = true`) because it carries the
directory field set. Classification follows the field shapes, not the
flag. -/
theorem untagged_ignores_flag_cex :
    getField c3rec "is_dir" = some (JVal.bool false) ∧
    decodeDirEnt c3rec = some (DirEnt.Directory false "2024" "/x" "x" 0) ∧
    (DirEnt.Directory false "2024" "/x" "x" 0).is_dir = true := by
  refine ⟨rfl, rfl, rfl⟩

/-- Claim C3 (amended): decoding classifies a raw record by which
variant's field set matches — the `Directory` shape is tried first, the
value of the `is_dir` flag is irrelevant to the classification (first
part) — and decoding fails when no known record shape matches: with
neither a `folder_path` nor a `file_path` field, no variant matches and
the record is rejected (second part). -/
theorem untagged_decode_by_shape :
    (∀ (o : JObj) (b₁ b₂ : Bool),
      (decodeDirEnt (("is_dir", JVal.bool b₁) :: o)).map DirEnt.is_dir =
        (decodeDirEnt (("is_dir", JVal.bool b₂) :: o)).map DirEnt.is_dir) ∧
    (∀ o : JObj, getField o "folder_path" = none →
      getField o "file_path" = none → decodeDirEnt o = none) := by
  constructor
  · intro o b₁ b₂
    unfold decodeDirEnt
    have hds := decodeDirectory_isSome_flag b₁ b₂ o
    have hfs := decodeFile_isSome_flag b₁ b₂ o
    cases h₁ : decodeDirectory (("is_dir", JVal.bool b₁) :: o) with
    | some e₁ =>
      rw [h₁] at hds
      obtain ⟨e₂, h₂⟩ := Option.isSome_iff_exists.mp (by rw [← hds]; rfl)
      rw [h₂]
      simp [decodeDirectory_is_dir h₁, decodeDirectory_is_dir h₂]
    | none =>
      rw [h₁] at hds
      have h₂ : decodeDirectory (("is_dir", JVal.bool b₂) :: o) = none := by
        rw [← Option.not_isSome_iff_eq_none, ← hds]
        simp
      rw [h₂]
      cases g₁ : decodeFile (("is_dir", JVal.bool b₁) :: o) with
      | some f₁ =>
        rw [g₁] at hfs
        obtain ⟨f₂, g₂⟩ := Option.isSome_iff_exists.mp (by rw [← hfs]; rfl)
        rw [g₂]
        simp [decodeFile_is_dir g₁, decodeFile_is_dir g₂]
      | none =>
        rw [g₁] at hfs
        have g₂ : decodeFile (("is_dir", JVal.bool b₂) :: o) = none := by
          rw [← Option.not_isSome_iff_eq_none, ← hfs]
          simp
        rw [g₂]
  · intro o h1 h2
    have d1 : decodeDirectory o = none := by
      unfold decodeDirectory
      rw [show reqStr o "folder_path" = none by simp [reqStr, h1]]
      cases reqBool o "is_dir" <;> cases reqStr o "last_modified" <;> rfl
    have d2 : decodeFile o = none := by
      unfold decodeFile
      rw [show reqStr o "file_path" = none by simp [reqStr, h2]]
      cases reqBool o "is_dir" <;> cases reqStr o "last_modified" <;> rfl
    simp [decodeDirEnt, d1, d2]

/-- Witness for `untagged_decode_by_shape`: the flag-irrelevance part at
the C3 record's tail, and the rejection part at a pathless record. -/
theorem untagged_decode_by_shape_witness :
    (decodeDirEnt (("is_dir", JVal.bool false) :: c3rec.tail)).map
        DirEnt.is_dir =
      (decodeDirEnt (("is_dir", JVal.bool true) :: c3rec.tail)).map
        DirEnt.is_dir ∧
    decodeDirEnt [("is_dir", JVal.bool true)] = none := by
  constructor
  · exact untagged_decode_by_shape.1 c3rec.tail false true
  · exact untagged_decode_by_shape.2 [("is_dir", JVal.bool true)] rfl rfl

lemma entriesOne_isSome (base token : String) (e : DirEnt) :
    (entriesOne base token e).isSome = true := by
  cases e <;> rfl

/-- Claim C10: `is_dir()` is literally the negation of `is_file()` (first
part), so on the file branch `size()` is always `some` and the
`unreachable!()` arm is never taken: the `entries()` record mapping is
total on every decoded listing (second part — `none` would be a panic). -/
theorem entries_total :
    (∀ e : DirEnt, e.is_dir = !e.is_file) ∧
    (∀ (base token : String) (es : List DirEnt),
      (entriesMap base token es).isSome = true) := by
  constructor
  · intro e
    rfl
  · intro base token es
    induction es with
    | nil => rfl
    | cons e es ih =>
      obtain ⟨b, hb⟩ :=
        Option.isSome_iff_exists.mp (entriesOne_isSome base token e)
      obtain ⟨bs, hbs⟩ := Option.isSome_iff_exists.mp ih
      unfold entriesMap at hbs ⊢
      rw [List.mapM_cons, hb, hbs]
      rfl

end SeafShare
